/-
  Verification of the dom-with-styles snapshot engine.

  Shallow embedding of src/src/index.js (domWithStyles) and
  src/src/domObserver.js (trackMutation) into Lean 4, together with proofs
  checking the natural-language specification against the code.

  Modelling conventions:
  * DOM trees are modelled by the mutual inductives DomNode/DomForest
    (a forest is used instead of List so that all recursions are structural
    and all definitions evaluate by rfl/decide).
  * Browser APIs that the code only reads (getComputedStyle, layout width
    and height of images, fetch, CSS parsing, querySelectorAll match counts,
    XMLSerializer) are supplied as an explicit environment record.
  * sessionStorage is an association list together with an operation trace,
    so that "this key is neither read nor written" is a provable statement.
  * JavaScript values that matter to control flow (undefined vs null vs
    objects vs a pending Promise) are modelled by the JsVal type.
  * Fallible operations return Except String; a thrown exception is an
    Except.error and a try/catch is a match on it.
-/
import Mathlib

namespace DomWithStyles

/-- JavaScript runtime values, to the extent that the embedded code's control
flow depends on them: `undefined`, `null`, strings, a generic object
reference, and a pending Promise object (the result of the un-awaited
`response.text()` call in `loadCss`). -/
inductive JsVal where
  | undef
  | jsNull
  | str (s : String)
  | objRef
  | promiseObj
deriving DecidableEq, Repr

/-- Strict-equality comparison `v === undefined`. -/
def jsIsUndefined : JsVal → Bool
  | JsVal.undef => true
  | _ => false

/-- JavaScript ToString coercion, as applied when a JsVal is assigned to
`textContent`: a pending Promise stringifies to "[object Promise]". -/
def jsToString : JsVal → String
  | JsVal.str s => s
  | JsVal.promiseObj => "[object Promise]"
  | JsVal.undef => "undefined"
  | JsVal.jsNull => "null"
  | JsVal.objRef => "[object Object]"

/-- Association-list lookup, the reading half of `sessionStorage.getItem` and
of attribute maps: the first binding of the key, if any. -/
def lookupEntry (l : List (String × String)) (k : String) : Option String :=
  match l.find? (fun p => p.1 == k) with
  | some p => some p.2
  | none => none

/-- Replace the (unique) binding of `k` if present, otherwise append it: the
semantics of `sessionStorage.setItem` / JS object property assignment. -/
def entrySet (l : List (String × String)) (k v : String) : List (String × String) :=
  match l with
  | [] => [(k, v)]
  | p :: rest => if p.1 == k then (k, v) :: rest else p :: entrySet rest k v

/-- Remove every binding of `k`: the semantics of `sessionStorage.removeItem`. -/
def entryRemove (l : List (String × String)) (k : String) : List (String × String) :=
  l.filter (fun p => !(p.1 == k))

/-! ## src/src/domObserver.js -/

/-- State of the page as seen by `trackMutation`: the sessionStorage entries
and the number of MutationObserver instances whose `observe` has been
called on the document root. -/
structure ObserverPage where
  storage : List (String × String)
  observers : Nat
deriving DecidableEq, Repr

/-- The value of `typeof observeDOM` in the guard of `trackMutation`:
the `const observeDOM` below the guard is scoped to the if-block, so the
name has no binding in the enclosing scope and `typeof` yields the string
"undefined" (a string, not the value `undefined`). -/
def typeofObserveDOM : JsVal := JsVal.str "undefined"

/-- The function returned by the IIFE in `trackMutation` (source lines 6-18):
if `window.MutationObserver` exists, construct an observer, observe the
document root with childList and subtree, and set `allow_snapshot` to
"true"; otherwise set `allow_snapshot` to "false". In the source this
function is bound to `observeDOM` but never invoked. -/
def observeDOMInstaller (hasMutationObserver : Bool) (page : ObserverPage) : ObserverPage :=
  if hasMutationObserver then
    { storage := entrySet page.storage "allow_snapshot" "true"
      observers := page.observers + 1 }
  else
    { page with storage := entrySet page.storage "allow_snapshot" "false" }

/-- src/src/domObserver.js `trackMutation` (lines 1-21). The guard is
`typeof observeDOM === undefined`; since `typeof` produces a string this
strict comparison with the value `undefined` is always false and the body
never runs. Were the body entered, the IIFE would remove `dom_snapshot`
and bind the installer function to `observeDOM` without calling it. -/
def trackMutation (hasMutationObserver : Bool) (page : ObserverPage) : ObserverPage :=
  if jsIsUndefined typeofObserveDOM then
    { page with storage := entryRemove page.storage "dom_snapshot" }
  else
    page

/-! ## Data model for src/src/index.js -/

mutual
/-- A node of the live DOM tree: an element with tag name, attribute map and
children, a text node, or a comment node. -/
inductive DomNode where
  | element (tag : String) (attrs : List (String × String)) (children : DomForest)
  | text (value : String)
  | comment (value : String)
/-- A sequence of live DOM nodes (a childNodes list, kept as a bespoke
inductive so all recursions over the tree are structural). -/
inductive DomForest where
  | nil
  | cons (head : DomNode) (tail : DomForest)
end

/-- A node of the cloned, detached output tree. Elements carry the attributes
copied by `cloneNode(false)`, the map of style properties written by
`updateStyle` (`clone.style[name] = value`), and any plain JS properties set
on the object that are not content attributes and do not serialize (the
`img.class = element.class` line writes such an expando). `raw` stands for
markup assigned through `innerHTML`. -/
inductive CloneNode where
  | element (tag : String) (attrs : List (String × String))
      (styleUpdates : List (String × String))
      (expandos : List (String × JsVal)) (children : List CloneNode)
  | text (value : String)
  | comment (value : String)
  | raw (markup : String)

/-- A computed-style view (`CSSStyleDeclaration`): an indexed list of
property names with their values. -/
structure ComputedStyle where
  props : List (String × String)
deriving DecidableEq, Repr

/-- `getComputedStyle(node).item(i)`: the name of the property at index `i`,
or the empty string out of range. -/
def csItem (cs : ComputedStyle) (i : Nat) : String :=
  match cs.props.get? i with
  | some p => p.1
  | none => ""

/-- `getComputedStyle(node).getPropertyValue(name)`: the value of the first
property with that name, or the empty string if absent. -/
def csGetPropertyValue (cs : ComputedStyle) (name : String) : String :=
  match cs.props.find? (fun p => p.1 == name) with
  | some p => p.2
  | none => ""

/-- A CSS rule as exposed on a rule list: `selectorText` (undefined for
non-style rules such as at-rules) and `cssText`. -/
structure CssRule where
  selectorText : Option String
  cssText : String
deriving DecidableEq, Repr

/-- One entry of `document.styleSheets`: the attempted direct `cssRules`
access (which throws for cross-origin sheets) and the sheet's `href`. -/
structure LiveSheet where
  cssRulesAccess : Except String (List CssRule)
  href : String

/-- The document produced by `document.implementation.createDocument`:
a doctype and a list of top-level children. -/
structure XmlDoc where
  doctype : Option String
  children : List CloneNode

/-- The live document: doctype, root element, whether `document.head` is an
element (when there is none the getter yields null — never undefined), the
style-sheet list, and a counter of structural mutations applied to the live
tree, bumped by any modelled operation that changes it. -/
structure LiveDoc where
  doctype : Option String
  documentElement : DomNode
  headPresent : Bool
  styleSheets : List LiveSheet
  liveMutations : Nat

/-- Read-only browser capabilities the code consumes: `getComputedStyle`
(keyed structurally on the node), the layout width/height an `img` element
reports, network fetch of a URL to its body text, CSS parsing of a style
element's text into a rule list, `document.querySelectorAll(sel).length`,
and `XMLSerializer.serializeToString`. -/
structure BrowserEnv where
  computed : DomNode → ComputedStyle
  widthOf : DomNode → Nat
  heightOf : DomNode → Nat
  fetchText : String → Except String String
  parseCss : String → List CssRule
  matchCount : String → Nat
  serialize : XmlDoc → String

/-- `node.getAttribute(k)`: the attribute value, or null (none) when the
node is not an element or lacks the attribute. -/
def getAttr : DomNode → String → Option String
  | DomNode.element _ attrs _, k => lookupEntry attrs k
  | _, _ => none

/-- Reflected IDL string attribute (such as `element.alt` or `element.id`):
the content attribute's value, defaulting to the empty string. -/
def idlStringAttr (node : DomNode) (k : String) : String :=
  (getAttr node k).getD ""

/-- `node.tagName` for elements; tagName is undefined on other nodes and the
embedded code always tests for that case before using it. -/
def tagNameOf : DomNode → String
  | DomNode.element t _ _ => t
  | _ => ""

/-- The first element node of a sibling sequence: `previousElementSibling`
when applied to the reversed prefix before a node, `nextElementSibling` when
applied to the suffix after it. -/
def firstElementSibling : DomForest → Option DomNode
  | DomForest.nil => none
  | DomForest.cons (DomNode.element t a c) _ => some (DomNode.element t a c)
  | DomForest.cons _ rest => firstElementSibling rest

/-! ## src/src/index.js — stylesheet collection (lines 14-73) -/

/-- The proxy base URL hard-coded in `loadCssWithCorsAnywhere`. -/
def corsProxyUrl : String := "https://cors-anywhere.herokuapp.com/"

/-- `loadCssWithCorsAnywhere(href)` (lines 69-73): awaits a fetch of the
proxied URL and returns the awaited response text; a fetch rejection
propagates. -/
def loadCssWithCorsAnywhere (env : BrowserEnv) (href : String) : Except String String :=
  env.fetchText (corsProxyUrl ++ href)

/-- `loadCss(href)` (lines 42-59). The direct fetch is tried first; note that
`css = response.text()` is not awaited, so on the direct path `css` holds the
pending Promise object and `styleElement.textContent = css` stores its
ToString form. If the direct fetch rejects, the catch block awaits
`loadCssWithCorsAnywhere`, whose own rejection propagates out of `loadCss`
(the catch only wraps the direct fetch). The style element is appended to a
fresh `createHTMLDocument` body — never to the live tree — and its parsed
rule list is returned. -/
def loadCss (env : BrowserEnv) (href : String) : Except String (List CssRule) :=
  match
    (match env.fetchText href with
     | Except.ok _bodyText => Except.ok JsVal.promiseObj
     | Except.error _ =>
       match loadCssWithCorsAnywhere env href with
       | Except.ok t => Except.ok (JsVal.str t)
       | Except.error e => Except.error e) with
  | Except.error e => Except.error e
  | Except.ok css => Except.ok (env.parseCss (jsToString css))

/-- `initializeStyleSheets()` (lines 14-32): for each sheet of
`document.styleSheets` in order, try the direct `cssRules` access and on
failure fall back to `loadCss(sheet.href)`; a rejection of `loadCss` (all
recovery paths failed) propagates and rejects the whole collection. -/
def initializeStyleSheets (env : BrowserEnv) : List LiveSheet → Except String (List (List CssRule))
  | [] => Except.ok []
  | sheet :: rest =>
    match
      (match sheet.cssRulesAccess with
       | Except.ok rules => Except.ok rules
       | Except.error _ => loadCss env sheet.href) with
    | Except.error e => Except.error e
    | Except.ok rules =>
      match initializeStyleSheets env rest with
      | Except.error e => Except.error e
      | Except.ok sheets => Except.ok (rules :: sheets)

/-! ## src/src/index.js — style helpers (lines 75-185) -/

/-- `hasStyle(node)` (lines 82-84): `getComputedStyle(node, null) !== undefined`.
`getComputedStyle` returns a CSSStyleDeclaration object for every element and
never the value undefined, so the comparison is with an object reference. -/
def hasStyle (_env : BrowserEnv) (_node : DomNode) : Bool :=
  !(jsIsUndefined JsVal.objRef)

/-- `isDefaultStyle(cssPropName, propertyValue, defaultStyle)` (lines 134-140):
false when `defaultStyle` is nullish, otherwise value equality with the
default style's value for that property. -/
def isDefaultStyle (cssPropName propertyValue : String) (defaultStyle : Option ComputedStyle) : Bool :=
  match defaultStyle with
  | none => false
  | some ds => propertyValue == csGetPropertyValue ds cssPropName

/-- Whether the first list occurs contiguously inside the second. -/
def listInfixOf : List Char → List Char → Bool
  | pat, [] => pat.isPrefixOf []
  | pat, s@(_ :: rest) => pat.isPrefixOf s || listInfixOf pat rest

/-- Boolean substring containment with `String.indexOf` semantics:
`s.indexOf(pat) !== -1`; an empty pattern is always found. -/
def strIndexOfFound (s pat : String) : Bool :=
  listInfixOf pat.toList s.toList

/-- `isInlineStyle(node, cssPropName)` (lines 153-161): false when the
`style` attribute is nullish or the empty string (both falsy), otherwise a
substring containment test of the property name in the raw attribute text. -/
def isInlineStyle (node : DomNode) (cssPropName : String) : Bool :=
  match getAttr node "style" with
  | none => false
  | some inlineStyle =>
    if inlineStyle == "" then false
    else strIndexOfFound inlineStyle cssPropName

/-- The cache key built by `getDefaultStyle` via `JSON.stringify` of
`{tag, id, classes}`. Stringification of this shape is injective, so the key
is modelled by the structure itself. `classes` is a list of lists because
the source wraps the split result in a singleton array. -/
structure StyleShapeKey where
  tag : String
  id : Option String
  classes : List (List String)
deriving DecidableEq, Repr

/-- Split a character list at every occurrence of the separator, keeping
empty segments, as `String.prototype.split` does. -/
def splitCharsOn (sep : Char) : List Char → List (List Char)
  | [] => [[]]
  | c :: rest =>
    match splitCharsOn sep rest with
    | head :: tail => if c == sep then [] :: head :: tail else (c :: head) :: tail
    | [] => if c == sep then [[], []] else [[c]]

/-- JavaScript `s.split(' ')`. -/
def jsSplitSpace (s : String) : List String :=
  (splitCharsOn ' ' s.toList).map (fun l => String.mk l)

/-- The `classes` component of the key:
`node.getAttribute('class') ? [node.getAttribute('class').split(' ')].sort() : []`.
A nullish or empty class attribute is falsy and yields `[]`; otherwise the
split list is wrapped in a one-element array, on which `Array.sort` is the
identity — the class names themselves are never sorted. -/
def shapeClasses (node : DomNode) : List (List String) :=
  match getAttr node "class" with
  | none => []
  | some c => if c == "" then [] else [jsSplitSpace c]

/-- The shape key of a node as serialized on lines 174-178. -/
def shapeKey (node : DomNode) : StyleShapeKey :=
  { tag := tagNameOf node
    id := getAttr node "id"
    classes := shapeClasses node }

/-- The module-level `defaultStylesCache` map. -/
abbrev DefaultStylesCache := List (StyleShapeKey × ComputedStyle)

/-- `Map.get`: the stored style for a key, or undefined (none). -/
def cacheGet (c : DefaultStylesCache) (k : StyleShapeKey) : Option ComputedStyle :=
  match c.find? (fun p => p.1 == k) with
  | some p => some p.2
  | none => none

/-- `Map.has`. -/
def cacheHas (c : DefaultStylesCache) (k : StyleShapeKey) : Bool :=
  (cacheGet c k).isSome

/-- `Map.set` for a key that is absent (the only way the source calls it):
append the binding. -/
def cacheSet (c : DefaultStylesCache) (k : StyleShapeKey) (v : ComputedStyle) : DefaultStylesCache :=
  c ++ [(k, v)]

/-- `getDefaultStyle(node)` (lines 173-185): compute the shape key; if the
cache lacks it, store `window.getComputedStyle(node, null)` — the computed
style of the live node itself; no separate empty element is ever created —
and return the cached entry. -/
def getDefaultStyle (env : BrowserEnv) (cache : DefaultStylesCache) (node : DomNode) :
    Option ComputedStyle × DefaultStylesCache :=
  match cacheHas cache (shapeKey node) with
  | true => (cacheGet cache (shapeKey node), cache)
  | false =>
    (cacheGet (cacheSet cache (shapeKey node) (env.computed node)) (shapeKey node),
     cacheSet cache (shapeKey node) (env.computed node))

/-! ## src/src/index.js — node predicates and cloning (lines 188-386) -/

/-- ASCII-faithful `String.prototype.toLowerCase`, written over the character
list so it evaluates inside the kernel. -/
def strToLower (s : String) : String := String.mk (s.toList.map Char.toLower)

/-- ASCII-faithful `String.prototype.toUpperCase`, written over the character
list so it evaluates inside the kernel. -/
def strToUpper (s : String) : String := String.mk (s.toList.map Char.toUpper)

/-- `hasTagName(node, tagName)` (lines 196-202): false when `node.tagName`
is undefined (non-element nodes), otherwise a case-insensitive comparison. -/
def hasTagName (node : DomNode) (tagName : String) : Bool :=
  match node with
  | DomNode.element t _ _ => strToLower t == strToLower tagName
  | _ => false

/-- `isBlankCharacter(charCode)` (lines 269-271). -/
def isBlankCharacter (charCode : Nat) : Bool :=
  9 == charCode || 32 == charCode || 0xB == charCode || 0xC == charCode ||
    10 == charCode || 13 == charCode

/-- Whether an element sibling adjacent to the node (on either side) is a
span: `(node.previousElementSibling && hasTagName(prev, 'span')) ||
(node.nextElementSibling && hasTagName(next, 'span'))`. `prevRev` is the
reversed list of siblings before the node, `next` the siblings after it. -/
def spanAdjacent (prevRev next : DomForest) : Bool :=
  (match firstElementSibling prevRev with
   | some prev => hasTagName prev "span"
   | none => false) ||
  (match firstElementSibling next with
   | some nxt => hasTagName nxt "span"
   | none => false)

/-- `isEmptyTextNode(node)` (lines 239-258): only text nodes qualify; a text
node with a span element as its previous or next element sibling never
qualifies; otherwise the node qualifies exactly when every character code of
its `nodeValue` is blank. -/
def isEmptyTextNode (prevRev : DomForest) (node : DomNode) (next : DomForest) : Bool :=
  match node with
  | DomNode.text v =>
    if spanAdjacent prevRev next then false
    else v.toList.all (fun c => isBlankCharacter c.toNat)
  | _ => false

/-- The `ignoreTags` set (line 11). -/
def ignoreTags : List String := ["SCRIPT", "NOSCRIPT", "STYLE", "LINK"]

/-- The `noStyleTags` set (line 10). -/
def noStyleTags : List String :=
  ["BASE", "HEAD", "HTML", "META", "NOFRAME", "NOSCRIPT", "PARAM", "SCRIPT", "STYLE", "TITLE", "LINK"]

/-- `isIgnored(node)` (lines 214-228). The `node === undefined` guard never
fires in this embedding because the cloner is only applied to actual nodes.
Empty text nodes are ignored; nodes without a tagName are not; elements are
ignored when their upper-cased tag is in `ignoreTags`. -/
def isIgnored (prevRev : DomForest) (node : DomNode) (next : DomForest) : Bool :=
  if isEmptyTextNode prevRev node next then true
  else
    match node with
    | DomNode.element t _ _ => ignoreTags.contains (strToUpper t)
    | _ => false

/-- `isComputeStyle(node)` (lines 282-288): elements (the only nodes with a
defined tagName, and instances of Element) whose upper-cased tag is not in
`noStyleTags`. -/
def isComputeStyle (node : DomNode) : Bool :=
  match node with
  | DomNode.element t _ _ => !(noStyleTags.contains (strToUpper t))
  | _ => false

/-- `computeImageElement(element)` (lines 300-316): a fresh `img` element;
`alt` and `id` are copied only when truthy (non-empty); assigning the
reflected `width`/`height` IDL attributes writes those content attributes;
`img.class = element.class` copies the value of a nonexistent IDL attribute
(undefined) into a plain JS expando property, which is not a content
attribute and never serializes. The fresh element has no children. -/
def computeImageElement (env : BrowserEnv) (element : DomNode) : CloneNode :=
  CloneNode.element "IMG"
    ((if idlStringAttr element "alt" != "" then [("alt", idlStringAttr element "alt")] else []) ++
     (if idlStringAttr element "id" != "" then [("id", idlStringAttr element "id")] else []) ++
     [("width", toString (env.widthOf element)),
      ("height", toString (env.heightOf element))])
    [] [("class", JsVal.undef)] []

/-- The loop body of `updateStyle` (lines 335-350), iterating the computed
style's properties by index: read the name at the index, look up its value
by name, skip falsy (empty) values, and otherwise store the property on the
clone's style map when it is not the default value or the name occurs in the
node's inline style attribute text. Assignment replaces an existing entry or
appends a new one. -/
def updateStyleGo (node : DomNode) (cs : ComputedStyle) (defaultStyle : Option ComputedStyle)
    (style : List (String × String)) : List (String × String) → List (String × String)
  | [] => style
  | (cssPropName, _) :: rest =>
    if csGetPropertyValue cs cssPropName == "" then
      updateStyleGo node cs defaultStyle style rest
    else if !(isDefaultStyle cssPropName (csGetPropertyValue cs cssPropName) defaultStyle) ||
        isInlineStyle node cssPropName then
      updateStyleGo node cs defaultStyle
        (entrySet style cssPropName (csGetPropertyValue cs cssPropName)) rest
    else
      updateStyleGo node cs defaultStyle style rest

/-- `updateStyle(clone, node)` (lines 327-351): resolve the default style
first (this touches the cache even when the early return fires), then — the
`hasStyle` guard never fails — run the property loop over all indices of the
live computed style, starting from the clone's (empty) map of written style
properties. Returns the written style map and the updated cache. -/
def updateStyle (env : BrowserEnv) (cache : DefaultStylesCache) (node : DomNode) :
    List (String × String) × DefaultStylesCache :=
  match getDefaultStyle env cache node with
  | (defaultStyle, cache1) =>
    if hasStyle env node = false then ([], cache1)
    else (updateStyleGo node (env.computed node) defaultStyle [] (env.computed node).props, cache1)

mutual
/-- `deepCloneWithStyles(node)` (lines 361-386). `prevRev` and `next` carry
the sibling context the live node would expose through
`previousElementSibling`/`nextElementSibling`. Ignored nodes yield null;
`img` elements are substituted by `computeImageElement`; otherwise the node
is shallow-cloned, its style delta attached when `isComputeStyle`, and each
non-null cloned child appended in order. The default-styles cache is
threaded through. -/
def deepCloneWithStyles (env : BrowserEnv) (cache : DefaultStylesCache)
    (prevRev : DomForest) (node : DomNode) (next : DomForest) :
    Option CloneNode × DefaultStylesCache :=
  if isIgnored prevRev node next then (none, cache)
  else if hasTagName node "img" then (some (computeImageElement env node), cache)
  else
    match node with
    | DomNode.text v => (some (CloneNode.text v), cache)
    | DomNode.comment v => (some (CloneNode.comment v), cache)
    | DomNode.element tag attrs children =>
      match
        (if isComputeStyle (DomNode.element tag attrs children) then
          updateStyle env cache (DomNode.element tag attrs children)
        else ([], cache)) with
      | (styleUpdates, cache1) =>
        match cloneChildren env cache1 DomForest.nil children with
        | (kids, cache2) =>
          (some (CloneNode.element tag attrs styleUpdates [] kids), cache2)

/-- The `for child of node.childNodes` loop of `deepCloneWithStyles`:
clone each child in its sibling context and append the non-null results. -/
def cloneChildren (env : BrowserEnv) (cache : DefaultStylesCache)
    (prevRev : DomForest) : DomForest → List CloneNode × DefaultStylesCache
  | DomForest.nil => ([], cache)
  | DomForest.cons c cs =>
    match deepCloneWithStyles env cache prevRev c cs with
    | (oc, cache1) =>
      match cloneChildren env cache1 (DomForest.cons c prevRev) cs with
      | (rest, cache2) =>
        (match oc with
         | some cl => cl :: rest
         | none => rest, cache2)
end

/-! ## src/src/index.js — pruning, assembly and the result IIFE (lines 396-501) -/

/-- The selector string handed to `document.querySelectorAll`: for rules
without a `selectorText` the undefined value is coerced to the string
"undefined" (a valid type selector matching nothing). -/
def selectorArg (r : CssRule) : String :=
  r.selectorText.getD "undefined"

/-- The inner loop of `getUsedStyles` (lines 403-407): keep a rule's
`cssText` when optimization is off or its selector currently matches at
least one element of the live document. -/
def cleanRulesOf (matchCount : String → Nat) (isOptimizeCss : Bool) : List CssRule → List String
  | [] => []
  | r :: rest =>
    if !isOptimizeCss || 0 < matchCount (selectorArg r) then
      r.cssText :: cleanRulesOf matchCount isOptimizeCss rest
    else
      cleanRulesOf matchCount isOptimizeCss rest

/-- `getUsedStyles(isOptimizeCss, styleSheets)` (lines 396-413): one cleaned
rule-text list per input sheet, in the same order. -/
def getUsedStyles (matchCount : String → Nat) (isOptimizeCss : Bool) :
    List (List CssRule) → List (List String)
  | [] => []
  | rules :: rest => cleanRulesOf matchCount isOptimizeCss rules ::
      getUsedStyles matchCount isOptimizeCss rest

/-- `createDomElements()` (lines 421-426): start the stylesheet collection
and clone the live root (the clone runs regardless of the collection's
outcome and its cache updates persist); the combined promise rejects iff the
collection rejects. -/
def createDomElements (env : BrowserEnv) (live : LiveDoc) (cache : DefaultStylesCache) :
    Except String (Option CloneNode × List (List CssRule)) × DefaultStylesCache :=
  match deepCloneWithStyles env cache DomForest.nil live.documentElement DomForest.nil with
  | (clone, cache1) =>
    (match initializeStyleSheets env live.styleSheets with
     | Except.ok sheets => Except.ok (clone, sheets)
     | Except.error e => Except.error e, cache1)

/-- The `style` element built for one non-empty rule list:
`usedStyle.textContent = rules.join(' ')`. -/
def styleElementOf (rules : List String) : CloneNode :=
  CloneNode.element "STYLE" [] [] [] [CloneNode.text (String.intercalate " " rules)]

/-- Append a node to the first `head` element among the given children
(the lookup `document.head` performs under the html element), if there is
one. -/
def appendIntoHeadChildren : List CloneNode → CloneNode → Option (List CloneNode)
  | [], _ => none
  | CloneNode.element t a s e kids :: rest, el =>
    if strToUpper t == "HEAD" then
      some (CloneNode.element t a s e (kids ++ [el]) :: rest)
    else
      match appendIntoHeadChildren rest el with
      | some rest2 => some (CloneNode.element t a s e kids :: rest2)
      | none => none
  | other :: rest, el =>
    match appendIntoHeadChildren rest el with
    | some rest2 => some (other :: rest2)
    | none => none

/-- `doc.head.appendChild(el)` on the assembled document: the head is the
first `head`-tagged child of the document's `html` root element; when there
is no such head the property access chain fails with a TypeError. -/
def docAppendToHead (d : XmlDoc) (el : CloneNode) : Option XmlDoc :=
  match d.children with
  | CloneNode.element t a s e kids :: rest =>
    if strToUpper t == "HTML" then
      match appendIntoHeadChildren kids el with
      | some kids2 => some { d with children := CloneNode.element t a s e kids2 :: rest }
      | none => none
    else none
  | _ => none

/-- The `for(let rules of getUsedStyles(...))` loop of `finalize`
(lines 446-454): skip empty rule lists, otherwise append a style element to
the assembled document's head; a missing head raises a TypeError. -/
def appendUsedStyles (doc : XmlDoc) : List (List String) → Except String XmlDoc
  | [] => Except.ok doc
  | rules :: rest =>
    if rules.length == 0 then appendUsedStyles doc rest
    else
      match docAppendToHead doc (styleElementOf rules) with
      | some doc2 => appendUsedStyles doc2 rest
      | none => Except.error "TypeError: doc.head is null"

/-- The value of the live `document.head` property: an element when a head
exists, otherwise null. It is never the value undefined. -/
def documentHeadVal (live : LiveDoc) : JsVal :=
  if live.headPresent then JsVal.objRef else JsVal.jsNull

/-- The mutation of the live tree the dead branch of `finalize`
(lines 441-444) would perform: append a fresh head element to the live
document's html element. -/
def liveAppendHeadToHtml (live : LiveDoc) : LiveDoc :=
  { live with headPresent := true, liveMutations := live.liveMutations + 1 }

/-- `document.implementation.createDocument("", "", document.doctype)` as
called on lines 438 and 466: a fresh document is created and, when the live
document has a doctype, that DocumentType node is appended into the new
document — the append adopts the node, which removes it from the live
document. The call therefore both yields the new document (carrying the
doctype) and strips the doctype from the live document, a structural
mutation of the live tree; with no live doctype nothing is adopted. -/
def createDocumentWithLiveDoctype (live : LiveDoc) : XmlDoc × LiveDoc :=
  match live.doctype with
  | none => ({ doctype := none, children := [] }, live)
  | some dt =>
    ({ doctype := some dt, children := [] },
     { live with doctype := none, liveMutations := live.liveMutations + 1 })

/-- `finalize(isOptimizeCss, node, styleSheets)` (lines 437-457): create a
fresh document via `createDocument("", "", document.doctype)` — adopting
(and thereby removing) the live doctype — and append the cloned root
(`appendChild(null)` throws, but only after the doctype was already
adopted); then, only when the live `document.head` is strictly equal to
undefined — which the element-or-null property value never is — append a
head to the live html element; finally append one style element per
non-empty pruned rule list to the assembled document's head. -/
def finalize (env : BrowserEnv) (live : LiveDoc) (isOptimizeCss : Bool)
    (node : Option CloneNode) (styleSheets : List (List CssRule)) :
    Except String XmlDoc × LiveDoc :=
  match createDocumentWithLiveDoctype live with
  | (doc0, live1) =>
    match node with
    | none => (Except.error "TypeError: appendChild expects a node, got null", live1)
    | some root =>
      (appendUsedStyles { doc0 with children := [root] }
         (getUsedStyles env.matchCount isOptimizeCss styleSheets),
       if jsIsUndefined (documentHeadVal live1) then liveAppendHeadToHtml live1 else live1)

/-- `createErrorDocument(error)` (lines 465-475): a fresh document obtained
from `createDocument("", "", document.doctype)` — which adopts, and so
removes, whatever doctype the live document still has — whose `html` root
holds a `body` whose `innerHTML` is the error's string form. -/
def createErrorDocument (live : LiveDoc) (error : String) : XmlDoc × LiveDoc :=
  match createDocumentWithLiveDoctype live with
  | (doc0, live1) =>
    ({ doc0 with children := [CloneNode.element "HTML" [] [] []
        [CloneNode.element "BODY" [] [] [] [CloneNode.raw error]]] },
     live1)

/-- The try block of the result IIFE (lines 485-488): `createDomElements`
followed by `finalize`; the first raised error (stylesheet collection
failure, null clone, or missing head in the assembled document) escapes. -/
def tryBuildDoc (env : BrowserEnv) (live : LiveDoc) (cache : DefaultStylesCache)
    (optimizeImport : Bool) : Except String XmlDoc × LiveDoc × DefaultStylesCache :=
  match createDomElements env live cache with
  | (Except.error e, cache1) => (Except.error e, live, cache1)
  | (Except.ok (clone, sheets), cache1) =>
    match finalize env live optimizeImport clone sheets with
    | (res, live1) => (res, live1, cache1)

/-- The try/catch of the result IIFE (lines 485-491): any error raised during
cloning or assembly is converted into an error document. -/
def buildSnapshotDoc (env : BrowserEnv) (live : LiveDoc) (cache : DefaultStylesCache)
    (optimizeImport : Bool) : XmlDoc × LiveDoc × DefaultStylesCache :=
  match tryBuildDoc env live cache optimizeImport with
  | (Except.ok d, live1, cache1) => (d, live1, cache1)
  | (Except.error e, live1, cache1) =>
    match createErrorDocument live1 e with
    | (docE, live2) => (docE, live2, cache1)

/-! ## sessionStorage with an operation trace -/

/-- A sessionStorage operation, recorded for stating which keys a run reads
or writes. -/
inductive StorageOp where
  | get (key : String)
  | set (key value : String)
  | remove (key : String)
deriving DecidableEq, Repr

/-- The page-scoped sessionStorage: its entries and the trace of operations
performed on it. -/
structure Storage where
  entries : List (String × String)
  trace : List StorageOp
deriving DecidableEq, Repr

/-- `sessionStorage.getItem(k)`: the stored string or null. -/
def sGetItem (s : Storage) (k : String) : Option String × Storage :=
  (lookupEntry s.entries k, { s with trace := s.trace ++ [StorageOp.get k] })

/-- `sessionStorage.setItem(k, v)`. -/
def sSetItem (s : Storage) (k v : String) : Storage :=
  { entries := entrySet s.entries k v, trace := s.trace ++ [StorageOp.set k v] }

/-- Truthiness of a `getItem` result: null and the empty string are falsy. -/
def jsTruthyStr : Option String → Bool
  | none => false
  | some s => s != ""

/-! ## The result IIFE of domWithStyles (lines 477-501) -/

/-- The outcome of one snapshot request: the resolved string, the final
storage, live document and default-styles cache, and whether the full build
pipeline ran (as opposed to the stored snapshot being returned directly). -/
structure RunResult where
  value : String
  storage : Storage
  live : LiveDoc
  cache : DefaultStylesCache
  buildRan : Bool

/-- The build-and-store tail of the IIFE (lines 483-500): run the guarded
build, serialize the resulting document, and store the string under
`dom_snapshot` when `allow_snapshot` reads "true". -/
def domWithStylesBuild (env : BrowserEnv) (live : LiveDoc) (cache : DefaultStylesCache)
    (optimizeImport : Bool) (st : Storage) : RunResult :=
  match buildSnapshotDoc env live cache optimizeImport with
  | (doc, live1, cache1) =>
    match sGetItem st "allow_snapshot" with
    | (allow2, st2) =>
      { value := env.serialize doc
        storage := if allow2 == some "true" then
            sSetItem st2 "dom_snapshot" (env.serialize doc)
          else st2
        live := live1
        cache := cache1
        buildRan := true }

/-- `domWithStyles(optimizeImport)`'s result IIFE (lines 477-501): when
`allow_snapshot` reads "true" and the stored `dom_snapshot` is truthy
(present and non-empty) it is returned directly; otherwise the build runs
and the result is stored back when `allow_snapshot` reads "true". -/
def domWithStyles (env : BrowserEnv) (live : LiveDoc) (cache : DefaultStylesCache)
    (optimizeImport : Bool) (st : Storage) : RunResult :=
  match sGetItem st "allow_snapshot" with
  | (allow1, st1) =>
    if allow1 == some "true" then
      match sGetItem st1 "dom_snapshot" with
      | (stored, st2) =>
        if jsTruthyStr stored then
          { value := stored.getD ""
            storage := st2
            live := live
            cache := cache
            buildRan := false }
        else domWithStylesBuild env live cache optimizeImport st2
    else domWithStylesBuild env live cache optimizeImport st1

/-! ## Spec-modelled baseline element -/

/-- Modelled from the spec: §4.1 describes the diff baseline as the computed
style of "an empty, invisible element constructed purely from tag/id/class
(no children, no other attributes)". The source never constructs such an
element; this definition captures the element the spec describes, for
comparison with what `getDefaultStyle` actually stores. -/
def emptyShapeElement (node : DomNode) : DomNode :=
  DomNode.element (tagNameOf node)
    ((match getAttr node "id" with
      | some i => [("id", i)]
      | none => []) ++
     (match getAttr node "class" with
      | some c => [("class", c)]
      | none => []))
    DomForest.nil

/-! ## Concrete fixtures used by witnesses and counterexamples -/

/-- A live div carrying an inline style and an unsorted class attribute. -/
def c2Node : DomNode :=
  DomNode.element "DIV" [("style", "color:red"), ("class", "b a")] DomForest.nil

/-- A computed-style assignment under which the styled live div renders red
while any other element — the empty baseline element included — renders
black. -/
def c2Computed : DomNode → ComputedStyle
  | DomNode.element _ (("style", _) :: _) _ => ComputedStyle.mk [("color", "rgb(255, 0, 0)")]
  | _ => ComputedStyle.mk [("color", "rgb(0, 0, 0)")]

/-- A browser environment for the `getDefaultStyle` fixture; everything but
`computed` is inert. -/
def c2Env : BrowserEnv :=
  { computed := c2Computed
    widthOf := fun _ => 0
    heightOf := fun _ => 0
    fetchText := fun _ => Except.error "NetworkError"
    parseCss := fun _ => []
    matchCount := fun _ => 0
    serialize := fun _ => "" }

/-! ## Claim theorems -/

/-- C1: the claim states that every call to `trackMutation` installs the
mutation-observation side channel and sets `allow_snapshot`. In the source
the guard `typeof observeDOM === undefined` compares the string "undefined"
with the value undefined and is always false, so a call changes nothing:
with MutationObserver available and a snapshot stored, the page state is
returned untouched, no observer is installed and `allow_snapshot` is never
written — while the never-invoked installer function bound inside the guard
would have set it to "true". -/
theorem trackMutation_never_installs :
    trackMutation true ⟨[("dom_snapshot", "SNAP")], 0⟩ = ⟨[("dom_snapshot", "SNAP")], 0⟩
    ∧ (trackMutation true ⟨[("dom_snapshot", "SNAP")], 0⟩).observers = 0
    ∧ lookupEntry (trackMutation true ⟨[("dom_snapshot", "SNAP")], 0⟩).storage "allow_snapshot"
        = none
    ∧ lookupEntry (observeDOMInstaller true ⟨[("dom_snapshot", "SNAP")], 0⟩).storage
        "allow_snapshot" = some "true" := by
  refine ⟨rfl, rfl, rfl, rfl⟩

/-- C2: the claim states that on a cache miss the baseline for a node's
shape key is obtained by creating an empty invisible element from
tag/id/class and reading that fresh element's computed style. In the source
`getDefaultStyle` stores `window.getComputedStyle(node, null)` — the live
node's own computed style; no fresh element exists — and the class
component of the key is a singleton-wrapped, unsorted split. At the fixture
node the stored baseline is the node's own style and differs from the
computed style of the spec's empty shape element, and the key's class lists
stay in attribute order. -/
theorem getDefaultStyle_uses_live_node_style :
    (getDefaultStyle c2Env [] c2Node).1 = some (c2Env.computed c2Node)
    ∧ c2Env.computed c2Node ≠ c2Env.computed (emptyShapeElement c2Node)
    ∧ (shapeKey c2Node).classes = [["b", "a"]] := by
  refine ⟨by decide, by decide, by decide⟩

/-- Unfolding of `lookupEntry` on a nonempty list. -/
theorem lookupEntry_cons (p : String × String) (rest : List (String × String)) (k : String) :
    lookupEntry (p :: rest) k = if p.1 = k then some p.2 else lookupEntry rest k := by
  by_cases h : p.1 = k
  · simp [lookupEntry, List.find?, h]
  · have hb : (p.1 == k) = false := by simp [h]
    simp [lookupEntry, List.find?, hb, h]

/-- Setting a key stores its value. -/
theorem lookupEntry_entrySet_self (l : List (String × String)) (k v : String) :
    lookupEntry (entrySet l k v) k = some v := by
  induction l with
  | nil => simp [entrySet, lookupEntry_cons, lookupEntry]
  | cons p rest ih =>
    by_cases h : p.1 = k
    · simp [entrySet, h, lookupEntry_cons]
    · simp [entrySet, h, lookupEntry_cons, ih]

/-- Setting a key leaves every other key's binding unchanged. -/
theorem lookupEntry_entrySet_ne (l : List (String × String)) (k v k2 : String)
    (h : k2 ≠ k) : lookupEntry (entrySet l k v) k2 = lookupEntry l k2 := by
  induction l with
  | nil => simp [entrySet, lookupEntry_cons, lookupEntry, Ne.symm h]
  | cons p rest ih =>
    by_cases hp : p.1 = k
    · simp [entrySet, hp, lookupEntry_cons, Ne.symm h]
    · by_cases hp2 : p.1 = k2
      · simp [entrySet, hp, hp2, lookupEntry_cons, h]
      · simp [entrySet, hp, hp2, lookupEntry_cons, ih, h]

/-- Lookup after the `updateStyle` property loop: a name is bound in the
final map exactly when some iterated property carries that name and the
code's inclusion condition holds for it; otherwise the initial binding is
untouched. -/
theorem updateStyleGo_lookup (node : DomNode) (cs : ComputedStyle)
    (ds : Option ComputedStyle) (name : String) (props : List (String × String))
    (style : List (String × String)) :
    lookupEntry (updateStyleGo node cs ds style props) name =
      if name ∈ props.map Prod.fst ∧ csGetPropertyValue cs name ≠ ""
          ∧ (isDefaultStyle name (csGetPropertyValue cs name) ds = false
             ∨ isInlineStyle node name = true) then
        some (csGetPropertyValue cs name)
      else lookupEntry style name := by
  induction props generalizing style with
  | nil => simp [updateStyleGo]
  | cons p rest ih =>
    obtain ⟨n, w⟩ := p
    by_cases hv : csGetPropertyValue cs n = ""
    · rw [show updateStyleGo node cs ds style ((n, w) :: rest)
          = updateStyleGo node cs ds style rest by simp [updateStyleGo, hv], ih]
      by_cases hn : name = n
      · subst hn
        simp [hv]
      · exact (if_congr (by simp [List.mem_cons, hn]) rfl rfl).symm
    · by_cases hinc : isDefaultStyle n (csGetPropertyValue cs n) ds = false
          ∨ isInlineStyle node n = true
      · rw [show updateStyleGo node cs ds style ((n, w) :: rest)
            = updateStyleGo node cs ds (entrySet style n (csGetPropertyValue cs n)) rest by
              rcases hinc with h | h <;> simp [updateStyleGo, hv, h], ih]
        by_cases hmem : name ∈ rest.map Prod.fst ∧ csGetPropertyValue cs name ≠ ""
            ∧ (isDefaultStyle name (csGetPropertyValue cs name) ds = false
               ∨ isInlineStyle node name = true)
        · simp only [if_pos hmem]
          rw [if_pos ⟨List.mem_cons_of_mem _ hmem.1, hmem.2⟩]
        · rw [if_neg hmem]
          by_cases hn : name = n
          · subst hn
            rw [lookupEntry_entrySet_self]
            rw [if_pos ⟨List.mem_cons_self _ _, hv, hinc⟩]
          · rw [lookupEntry_entrySet_ne _ _ _ _ hn]
            rw [if_neg]
            intro hc
            rcases List.mem_cons.mp hc.1 with h | h
            · exact hn h
            · exact hmem ⟨h, hc.2⟩
      · rw [show updateStyleGo node cs ds style ((n, w) :: rest)
            = updateStyleGo node cs ds style rest by
              push_neg at hinc
              simp [updateStyleGo, hv, hinc.1, hinc.2], ih]
        by_cases hn : name = n
        · subst hn
          by_cases hmem : name ∈ rest.map Prod.fst
          · simp [hmem]
          · rw [if_neg, if_neg]
            · intro hc
              exact hmem ((List.mem_cons.mp hc.1).resolve_left (fun h => absurd hc.2.2 (by
                push_neg at hinc
                rw [h] at hinc ⊢
                simp [hinc.1, hinc.2])))
            · intro hc
              exact absurd hc.2.2 (by
                push_neg at hinc
                simp [hinc.1, hinc.2])
        · exact (if_congr (by simp [List.mem_cons, hn]) rfl rfl).symm

/-- With optimization off, the inner loop keeps every rule's text. -/
theorem cleanRulesOf_disabled (matchCount : String → Nat) (rules : List CssRule) :
    cleanRulesOf matchCount false rules = rules.map (fun r => r.cssText) := by
  induction rules with
  | nil => rfl
  | cons r rs ih => simp [cleanRulesOf, ih]

/-- With optimization on, the inner loop keeps exactly the rules whose
selector matches at least one live element. -/
theorem cleanRulesOf_enabled (matchCount : String → Nat) (rules : List CssRule) :
    cleanRulesOf matchCount true rules
      = (rules.filter (fun r => 0 < matchCount (selectorArg r))).map (fun r => r.cssText) := by
  induction rules with
  | nil => rfl
  | cons r rs ih =>
    by_cases h : 0 < matchCount (selectorArg r)
    · simp [cleanRulesOf, h, ih, List.filter_cons]
    · simp [cleanRulesOf, h, ih, List.filter_cons]

/-- Unfolding of `cacheGet` on a nonempty cache. -/
theorem cacheGet_cons (p : StyleShapeKey × ComputedStyle) (rest : DefaultStylesCache)
    (k : StyleShapeKey) :
    cacheGet (p :: rest) k = if p.1 == k then some p.2 else cacheGet rest k := by
  by_cases h : (p.1 == k) = true
  · simp [cacheGet, List.find?, h]
  · simp only [Bool.not_eq_true] at h
    simp [cacheGet, List.find?, h]

/-- Inserting a missing key makes its lookup return the inserted style. -/
theorem cacheGet_cacheSet_self (c : DefaultStylesCache) (k : StyleShapeKey)
    (v : ComputedStyle) (h : cacheHas c k = false) :
    cacheGet (cacheSet c k v) k = some v := by
  induction c with
  | nil => simp [cacheSet, cacheGet, List.find?]
  | cons p rest ih =>
    rw [cacheHas, cacheGet_cons] at h
    by_cases hp : (p.1 == k) = true
    · rw [if_pos hp] at h
      simp at h
    · rw [if_neg hp] at h
      have step : cacheSet (p :: rest) k v = p :: cacheSet rest k v := by
        simp [cacheSet]
      rw [step, cacheGet_cons, if_neg hp]
      exact ih h

/-- `getDefaultStyle` always hands back a stored baseline (the `Map.get`
after the guarded `Map.set` cannot miss). -/
theorem getDefaultStyle_some (env : BrowserEnv) (cache : DefaultStylesCache) (node : DomNode) :
    ∃ b, (getDefaultStyle env cache node).1 = some b := by
  unfold getDefaultStyle
  cases hh : cacheHas cache (shapeKey node) with
  | true =>
    rw [cacheHas] at hh
    obtain ⟨b, hb⟩ := Option.isSome_iff_exists.mp hh
    exact ⟨b, hb⟩
  | false =>
    exact ⟨env.computed node, cacheGet_cacheSet_self _ _ _ hh⟩

/-- C5: for every styled element, a computed-style property lands on the
clone's inline style map exactly when its value is non-empty and it either
differs from the resolved baseline for the node's shape or its name occurs
textually inside the node's own inline style attribute; empty values are
always skipped. -/
theorem updateStyle_includes_iff (env : BrowserEnv) (cache : DefaultStylesCache)
    (node : DomNode) :
    ∃ baseline : ComputedStyle,
      (getDefaultStyle env cache node).1 = some baseline
      ∧ ∀ name : String,
          lookupEntry (updateStyle env cache node).1 name =
            if name ∈ (env.computed node).props.map Prod.fst
                ∧ csGetPropertyValue (env.computed node) name ≠ ""
                ∧ (csGetPropertyValue (env.computed node) name
                      ≠ csGetPropertyValue baseline name
                   ∨ isInlineStyle node name = true) then
              some (csGetPropertyValue (env.computed node) name)
            else none := by
  obtain ⟨b, hb⟩ := getDefaultStyle_some env cache node
  refine ⟨b, hb, fun name => ?_⟩
  have hus : (updateStyle env cache node).1
      = updateStyleGo node (env.computed node) (getDefaultStyle env cache node).1 []
          (env.computed node).props := rfl
  rw [hus, updateStyleGo_lookup, hb]
  refine if_congr ?_ rfl (by simp [lookupEntry, List.find?])
  constructor
  · rintro ⟨h1, h2, h3⟩
    refine ⟨h1, h2, ?_⟩
    rcases h3 with h3 | h3
    · exact Or.inl (by simpa [isDefaultStyle] using h3)
    · exact Or.inr h3
  · rintro ⟨h1, h2, h3⟩
    refine ⟨h1, h2, ?_⟩
    rcases h3 with h3 | h3
    · exact Or.inl (by simpa [isDefaultStyle] using h3)
    · exact Or.inr h3

/-- C10: pruning with `enabled = false` passes every rule's text through
verbatim; with `enabled = true` a rule is kept if and only if its selector
currently matches at least one element of the live document; in both modes
the output is one rule-text list per input sheet in the same order. -/
theorem getUsedStyles_prunes_by_live_match (matchCount : String → Nat)
    (sheets : List (List CssRule)) :
    getUsedStyles matchCount false sheets
      = sheets.map (fun rules => rules.map (fun r => r.cssText))
    ∧ getUsedStyles matchCount true sheets
      = sheets.map (fun rules =>
          (rules.filter (fun r => 0 < matchCount (selectorArg r))).map (fun r => r.cssText)) := by
  constructor
  · induction sheets with
    | nil => rfl
    | cons rules rest ih =>
      simp [getUsedStyles, ih, cleanRulesOf_disabled]
  · induction sheets with
    | nil => rfl
    | cons rules rest ih =>
      simp [getUsedStyles, ih, cleanRulesOf_enabled]

/-- The live `document.head` property value is an element or null, never the
value undefined, so the strict comparison in `finalize` is always false. -/
theorem jsIsUndefined_documentHeadVal (live : LiveDoc) :
    jsIsUndefined (documentHeadVal live) = false := by
  by_cases h : live.headPresent <;> simp [documentHeadVal, h, jsIsUndefined]

/-- C7: a text node whose entire content is blank (whitespace or
carriage-control characters) is dropped by the cloner — it returns null —
when neither adjacent element sibling is a span, and is retained as a text
clone when an adjacent element sibling is a span. -/
theorem deepClone_blank_text (env : BrowserEnv) (cache : DefaultStylesCache)
    (prevRev next : DomForest) (v : String)
    (hblank : ∀ c ∈ v.toList, isBlankCharacter c.toNat = true) :
    (spanAdjacent prevRev next = false →
        deepCloneWithStyles env cache prevRev (DomNode.text v) next = (none, cache))
    ∧ (spanAdjacent prevRev next = true →
        deepCloneWithStyles env cache prevRev (DomNode.text v) next
          = (some (CloneNode.text v), cache)) := by
  constructor
  · intro hspan
    have hall : v.toList.all (fun c => isBlankCharacter c.toNat) = true :=
      List.all_eq_true.mpr hblank
    have hig : isIgnored prevRev (DomNode.text v) next = true := by
      simp only [isIgnored, isEmptyTextNode, hspan, Bool.false_eq_true, if_false, hall, if_true]
    simp [deepCloneWithStyles, hig]
  · intro hspan
    have hig : isIgnored prevRev (DomNode.text v) next = false := by
      simp [isIgnored, isEmptyTextNode, hspan]
    simp [deepCloneWithStyles, hig, hasTagName]

/-- C8: an `img` element with non-empty alt and id is substituted by a
freshly synthesized image clone carrying exactly the four properties alt,
id, width and height as attributes, with no children — the img subtree is
never cloned and no image content (no src) is carried over; the `class`
line only writes an undefined-valued JS expando, not an attribute. -/
theorem deepClone_img_substitution (env : BrowserEnv) (cache : DefaultStylesCache)
    (prevRev next : DomForest) (attrs : List (String × String)) (children : DomForest)
    (A I : String)
    (hA : lookupEntry attrs "alt" = some A) (hA2 : A ≠ "")
    (hI : lookupEntry attrs "id" = some I) (hI2 : I ≠ "") :
    deepCloneWithStyles env cache prevRev (DomNode.element "IMG" attrs children) next
      = (some (CloneNode.element "IMG"
          [("alt", A), ("id", I),
           ("width", toString (env.widthOf (DomNode.element "IMG" attrs children))),
           ("height", toString (env.heightOf (DomNode.element "IMG" attrs children)))]
          [] [("class", JsVal.undef)] []), cache) := by
  have hig : isIgnored prevRev (DomNode.element "IMG" attrs children) next = false := by
    simp [isIgnored, isEmptyTextNode, ignoreTags, strToUpper]
  have htag : hasTagName (DomNode.element "IMG" attrs children) "img" = true := by
    simp [hasTagName, strToLower]
  have himg : computeImageElement env (DomNode.element "IMG" attrs children)
      = CloneNode.element "IMG"
          [("alt", A), ("id", I),
           ("width", toString (env.widthOf (DomNode.element "IMG" attrs children))),
           ("height", toString (env.heightOf (DomNode.element "IMG" attrs children)))]
          [] [("class", JsVal.undef)] [] := by
    simp [computeImageElement, idlStringAttr, getAttr, hA, hI, hA2, hI2]
  simp [deepCloneWithStyles, hig, htag, himg]

/-- Witness for C7: a one-space text node is dropped with no adjacent span
and retained next to a span element. -/
theorem deepClone_blank_text_witness :
    deepCloneWithStyles c2Env [] DomForest.nil (DomNode.text " ") DomForest.nil = (none, [])
    ∧ deepCloneWithStyles c2Env []
        (DomForest.cons (DomNode.element "SPAN" [] DomForest.nil) DomForest.nil)
        (DomNode.text " ") DomForest.nil
      = (some (CloneNode.text " "), []) := by
  refine ⟨?_, ?_⟩
  · exact (deepClone_blank_text c2Env [] DomForest.nil DomForest.nil " "
      (by decide)).1 (by decide)
  · exact (deepClone_blank_text c2Env []
      (DomForest.cons (DomNode.element "SPAN" [] DomForest.nil) DomForest.nil)
      DomForest.nil " " (by decide)).2 (by decide)

/-- Witness for C8: a concrete img with alt, id and a src attribute is
replaced by a four-attribute childless image clone with no src. -/
theorem deepClone_img_substitution_witness :
    deepCloneWithStyles c2Env [] DomForest.nil
        (DomNode.element "IMG" [("alt", "logo"), ("id", "brand"), ("src", "a.png")]
          DomForest.nil)
        DomForest.nil
      = (some (CloneNode.element "IMG"
          [("alt", "logo"), ("id", "brand"), ("width", "0"), ("height", "0")]
          [] [("class", JsVal.undef)] []), []) :=
  deepClone_img_substitution c2Env [] DomForest.nil DomForest.nil
    [("alt", "logo"), ("id", "brand"), ("src", "a.png")] DomForest.nil
    "logo" "brand" (by decide) (by decide) (by decide) (by decide)

/-- A browser environment whose network always fails; used to drive the
error paths concretely. -/
def failEnv : BrowserEnv :=
  { computed := fun _ => ComputedStyle.mk []
    widthOf := fun _ => 0
    heightOf := fun _ => 0
    fetchText := fun _ => Except.error "NetworkError"
    parseCss := fun _ => []
    matchCount := fun _ => 0
    serialize := fun _ => "SERIALIZED" }

/-- A minimal live document with one cross-origin sheet whose direct rule
access throws. -/
def failLive : LiveDoc :=
  { doctype := none
    documentElement := DomNode.element "HTML" [] DomForest.nil
    headPresent := true
    styleSheets := [{ cssRulesAccess := Except.error "SecurityError"
                      href := "https://other.example/a.css" }]
    liveMutations := 0 }

/-- Two sheets: a readable inline one followed by a cross-origin one that no
recovery path can fetch. -/
def c3Sheets : List LiveSheet :=
  [{ cssRulesAccess := Except.ok [{ selectorText := some "p", cssText := "p-rule" }]
     href := "" },
   { cssRulesAccess := Except.error "SecurityError"
     href := "https://other.example/a.css" }]

/-- C3 counterexample: the claim says a sheet that no recovery path can
read contributes an empty rule list at its position rather than causing the
collection to throw. With the second sheet of `c3Sheets` unrecoverable
(direct access throws, direct fetch and proxied fetch both reject), the
whole collection rejects instead of producing `[[p-rule], []]`. -/
theorem initializeStyleSheets_throws_on_unrecoverable_sheet :
    initializeStyleSheets failEnv c3Sheets = Except.error "NetworkError" := rfl

/-- C3 as amended: per sheet the recovery chain is direct rule-list access,
then a fetch of the sheet's href, then one retry through the proxy fetch
path; but a sheet that fails all three paths makes the whole collection
reject (the failure propagates to the top-level catch) — no empty rule list
is substituted at its position. -/
theorem initializeStyleSheets_failure_propagates (env : BrowserEnv)
    (sheets : List LiveSheet) (sheet : LiveSheet) (hmem : sheet ∈ sheets)
    (e1 e2 e3 : String)
    (h1 : sheet.cssRulesAccess = Except.error e1)
    (h2 : env.fetchText sheet.href = Except.error e2)
    (h3 : env.fetchText (corsProxyUrl ++ sheet.href) = Except.error e3) :
    ∃ e, initializeStyleSheets env sheets = Except.error e := by
  induction sheets with
  | nil => cases hmem
  | cons s rest ih =>
    rcases List.mem_cons.mp hmem with heq | hmem2
    · subst heq
      refine ⟨e3, ?_⟩
      simp [initializeStyleSheets, h1, loadCss, loadCssWithCorsAnywhere, h2, h3]
    · cases hs : (match s.cssRulesAccess with
        | Except.ok rules => Except.ok rules
        | Except.error _ => loadCss env s.href : Except String (List CssRule)) with
      | error e0 => exact ⟨e0, by simp [initializeStyleSheets, hs]⟩
      | ok rules =>
        obtain ⟨e4, h4⟩ := ih hmem2
        exact ⟨e4, by simp [initializeStyleSheets, hs, h4]⟩

/-- Witness for the amended C3 statement at the concrete two-sheet fixture. -/
theorem initializeStyleSheets_failure_propagates_witness :
    ∃ e, initializeStyleSheets failEnv c3Sheets = Except.error e :=
  initializeStyleSheets_failure_propagates failEnv c3Sheets
    { cssRulesAccess := Except.error "SecurityError"
      href := "https://other.example/a.css" }
    (List.mem_cons_of_mem _ (List.mem_cons_self _ _))
    "SecurityError" "NetworkError" "NetworkError" rfl rfl rfl

/-- Whatever the live state at catch time, the error document's single root
is an html element whose body embeds the error message as markup. -/
theorem createErrorDocument_children (l : LiveDoc) (e : String) :
    (createErrorDocument l e).1.children
      = [CloneNode.element "HTML" [] [] []
          [CloneNode.element "BODY" [] [] [] [CloneNode.raw e]]] := by
  unfold createErrorDocument createDocumentWithLiveDoctype
  cases l.doctype <;> rfl

/-- C4: when anything in the try block of the result IIFE fails — stylesheet
collection, cloning or assembly — the failure is caught and the request
still resolves with the serialization of the error document built from the
live state at catch time, whose body embeds the error message as markup;
the promise is never rejected (the embedding is a total function whose only
fallible steps sit inside the caught block). -/
theorem build_failure_yields_error_document (env : BrowserEnv) (live : LiveDoc)
    (cache : DefaultStylesCache) (opt : Bool) (st : Storage) (e : String)
    (h : (tryBuildDoc env live cache opt).1 = Except.error e) :
    (domWithStylesBuild env live cache opt st).value
        = env.serialize (createErrorDocument (tryBuildDoc env live cache opt).2.1 e).1
    ∧ (createErrorDocument (tryBuildDoc env live cache opt).2.1 e).1.children
        = [CloneNode.element "HTML" [] [] []
            [CloneNode.element "BODY" [] [] [] [CloneNode.raw e]]] := by
  constructor
  · unfold domWithStylesBuild buildSnapshotDoc
    rcases htb : tryBuildDoc env live cache opt with ⟨res, live1, cache1⟩
    rw [htb] at h
    simp only at h
    subst h
    rfl
  · exact createErrorDocument_children _ e

/-- Witness for C4: with every network path failing, the collection raises
and the resolved value is the serialized error document. -/
theorem build_failure_yields_error_document_witness :
    (domWithStylesBuild failEnv failLive [] false { entries := [], trace := [] }).value
        = failEnv.serialize
            (createErrorDocument (tryBuildDoc failEnv failLive [] false).2.1
              "NetworkError").1
    ∧ (createErrorDocument (tryBuildDoc failEnv failLive [] false).2.1 "NetworkError").1.children
        = [CloneNode.element "HTML" [] [] []
            [CloneNode.element "BODY" [] [] [] [CloneNode.raw "NetworkError"]]] :=
  build_failure_yields_error_document failEnv failLive [] false
    { entries := [], trace := [] } "NetworkError" rfl

/-- A live document exposing a doctype, a bare root element and no style
sheets, so that a build runs straight through `finalize`. -/
def dtLive : LiveDoc :=
  { doctype := some "html"
    documentElement := DomNode.element "HTML" [] DomForest.nil
    headPresent := true
    styleSheets := []
    liveMutations := 0 }

/-- C9: the claim states that a snapshot build never appends to, removes
from, or otherwise mutates the live tree. In the source both `finalize`
(line 438) and `createErrorDocument` (line 466) pass the live
`document.doctype` node to `document.implementation.createDocument`, which
appends the node into the new document — adopting it and thereby removing
it from the live document. At a live document whose doctype is present, one
snapshot request strips the live doctype and registers a structural
mutation of the live tree. -/
theorem pipeline_removes_live_doctype :
    dtLive.doctype = some "html"
    ∧ (domWithStyles failEnv dtLive [] false { entries := [], trace := [] }).live.doctype
        = none
    ∧ (domWithStyles failEnv dtLive [] false { entries := [], trace := [] }).live.liveMutations
        = dtLive.liveMutations + 1 :=
  ⟨rfl, rfl, rfl⟩

/-- The Enabled/Valid fast path: with `allow_snapshot` reading "true" and a
non-empty stored snapshot, the request returns the stored string without
building, having only read the two keys. -/
theorem domWithStyles_hit (env : BrowserEnv) (live : LiveDoc) (cache : DefaultStylesCache)
    (opt : Bool) (st : Storage) (v : String)
    (ha : lookupEntry st.entries "allow_snapshot" = some "true")
    (hs : lookupEntry st.entries "dom_snapshot" = some v) (hv : v ≠ "") :
    domWithStyles env live cache opt st =
      { value := v
        storage := { entries := st.entries
                     trace := st.trace ++ [StorageOp.get "allow_snapshot",
                                           StorageOp.get "dom_snapshot"] }
        live := live
        cache := cache
        buildRan := false } := by
  unfold domWithStyles
  simp [sGetItem, ha, hs, jsTruthyStr, hv]

/-- C6 as amended: (a) when `allow_snapshot` is "true" and a non-empty
`dom_snapshot` string is stored, the stored string is returned directly, no
build runs, the entries are unchanged, and a second request with no
intervening mutation returns the byte-identical string; an empty stored
string is treated as absent and the build runs instead; (b) when
`allow_snapshot` is unset or not "true", the snapshot is recomputed and the
`dom_snapshot` entry is neither read nor written (the only storage
operations are the two reads of `allow_snapshot`); (c) with `allow_snapshot`
"true" and no stored snapshot, after the build the result is stored back
under `dom_snapshot`. -/
theorem snapshot_cache_states (env : BrowserEnv) (live : LiveDoc)
    (cache : DefaultStylesCache) (opt : Bool) (st : Storage) :
    (∀ v : String, lookupEntry st.entries "allow_snapshot" = some "true" →
        lookupEntry st.entries "dom_snapshot" = some v → v ≠ "" →
        (domWithStyles env live cache opt st).value = v
        ∧ (domWithStyles env live cache opt st).buildRan = false
        ∧ (domWithStyles env live cache opt st).storage.entries = st.entries
        ∧ (domWithStyles env live cache opt
              (domWithStyles env live cache opt st).storage).value = v)
    ∧ (lookupEntry st.entries "allow_snapshot" ≠ some "true" →
        (domWithStyles env live cache opt st).buildRan = true
        ∧ (domWithStyles env live cache opt st).storage.entries = st.entries
        ∧ (domWithStyles env live cache opt st).storage.trace
            = st.trace ++ [StorageOp.get "allow_snapshot", StorageOp.get "allow_snapshot"])
    ∧ (lookupEntry st.entries "allow_snapshot" = some "true" →
        lookupEntry st.entries "dom_snapshot" = none →
        (domWithStyles env live cache opt st).buildRan = true
        ∧ lookupEntry (domWithStyles env live cache opt st).storage.entries "dom_snapshot"
            = some (domWithStyles env live cache opt st).value) := by
  refine ⟨?_, ?_, ?_⟩
  · intro v ha hs hv
    rw [domWithStyles_hit env live cache opt st v ha hs hv]
    refine ⟨rfl, rfl, rfl, ?_⟩
    show (domWithStyles env live cache opt
        { entries := st.entries
          trace := st.trace ++ [StorageOp.get "allow_snapshot",
                                StorageOp.get "dom_snapshot"] }).value = v
    rw [domWithStyles_hit env live cache opt
        { entries := st.entries
          trace := st.trace ++ [StorageOp.get "allow_snapshot",
                                StorageOp.get "dom_snapshot"] } v ha hs hv]
  · intro ha
    have ha2 : (lookupEntry st.entries "allow_snapshot" == some "true") = false := by
      simp [ha]
    unfold domWithStyles domWithStylesBuild
    rcases hbs : buildSnapshotDoc env live cache opt with ⟨doc, live1, cache1⟩
    simp [sGetItem, ha2, hbs]
  · intro ha hs
    unfold domWithStyles domWithStylesBuild
    rcases hbs : buildSnapshotDoc env live cache opt with ⟨doc, live1, cache1⟩
    simp [sGetItem, ha, hs, jsTruthyStr, hbs, lookupEntry_entrySet_self, sSetItem]

/-- C6 counterexample: the claim reads every stored `dom_snapshot` string as
a cache hit, but the source checks truthiness, so an empty stored string is
treated as absent: with `allow_snapshot` "true" and `dom_snapshot` stored as
the empty string, the build pipeline runs instead of the stored string being
returned directly. -/
theorem snapshot_cache_empty_string_rebuilds :
    (domWithStyles failEnv failLive []
        false { entries := [("allow_snapshot", "true"), ("dom_snapshot", "")], trace := [] }).buildRan
        = true
    ∧ lookupEntry [("allow_snapshot", "true"), ("dom_snapshot", "")] "dom_snapshot" = some ""
    ∧ lookupEntry [("allow_snapshot", "true"), ("dom_snapshot", "")] "allow_snapshot"
        = some "true" :=
  ⟨rfl, rfl, rfl⟩

/-- Witness for the amended C6 statement: each of the three cache states
exercised at a concrete storage. -/
theorem snapshot_cache_states_witness :
    ((domWithStyles failEnv failLive [] false
        { entries := [("allow_snapshot", "true"), ("dom_snapshot", "SNAP")], trace := [] }).value
        = "SNAP"
     ∧ (domWithStyles failEnv failLive [] false
        { entries := [("allow_snapshot", "true"), ("dom_snapshot", "SNAP")], trace := [] }).buildRan
        = false)
    ∧ ((domWithStyles failEnv failLive [] false { entries := [], trace := [] }).buildRan = true
       ∧ (domWithStyles failEnv failLive [] false { entries := [], trace := [] }).storage.trace
          = [StorageOp.get "allow_snapshot", StorageOp.get "allow_snapshot"])
    ∧ ((domWithStyles failEnv failLive [] false
          { entries := [("allow_snapshot", "true")], trace := [] }).buildRan = true
       ∧ lookupEntry (domWithStyles failEnv failLive [] false
            { entries := [("allow_snapshot", "true")], trace := [] }).storage.entries
            "dom_snapshot"
          = some (domWithStyles failEnv failLive [] false
              { entries := [("allow_snapshot", "true")], trace := [] }).value) := by
  refine ⟨?_, ?_, ?_⟩
  · have h := (snapshot_cache_states failEnv failLive [] false
      { entries := [("allow_snapshot", "true"), ("dom_snapshot", "SNAP")], trace := [] }).1
      "SNAP" rfl rfl (by decide)
    exact ⟨h.1, h.2.1⟩
  · have h := (snapshot_cache_states failEnv failLive [] false
      { entries := [], trace := [] }).2.1 (by decide)
    exact ⟨h.1, h.2.2⟩
  · exact (snapshot_cache_states failEnv failLive [] false
      { entries := [("allow_snapshot", "true")], trace := [] }).2.2 rfl rfl

end DomWithStyles
